import Mathlib

/-!
Verification of the MeowDev multi-persona chat orchestrator.

This file gives a shallow embedding, in Lean 4, of the pure core of the
repository (memory store, task board, response-marker protocol, work loop,
review loop, responder selection, quota fallback) and proves or refutes the
frozen specification claims about it.

Modelling conventions:
* Python strings are Lean `String`s; character-level scanning works on
  `String.data : List Char`.
* SQLite tables are modelled as in-memory lists of rows; every statement the
  code issues (INSERT, UPDATE, DELETE) becomes the corresponding pure list
  operation.  Timestamp columns, which only order query output, are dropped.
* Python regular-expression scans (`re.sub`, `re.findall`, `re.search`) are
  compiled by hand into character-list matchers that follow the engine's
  leftmost, non-overlapping semantics, with greedy `\s*` and `\d+` and lazy
  `.+?` (including the backtracking between a greedy `\s*` and a following
  lazy group).  `\s`, `\w`, `str.lower`, `str.upper` and `str.strip` are
  modelled at the ASCII level (the CJK marker characters themselves are
  case-less and are neither ASCII whitespace nor ASCII word characters, so
  this matches CPython on all inputs appearing below).
* Randomness (`random.shuffle`) and the session stop flag are passed in as
  explicit parameters; `time.time()` values are dropped.
-/

namespace MeowDev

/-- ASCII whitespace, the characters Python's `\s` and `str.strip()` treat as
space on ASCII text. -/
def isSpaceChar (c : Char) : Bool :=
  c = ' ' || c = '\t' || c = '\n' || c = '\r' || c = '\x0b' || c = '\x0c'

/-- ASCII digit test, Python's `\d` on ASCII text. -/
def isDigitChar (c : Char) : Bool :=
  '0' ≤ c && c ≤ '9'

/-- ASCII word character, Python's `\w` restricted to ASCII (the repository
only ever puts ASCII identifiers and keys in `\w` positions). -/
def isWordChar (c : Char) : Bool :=
  c.isAlphanum || c = '_'

/-- Character-wise ASCII lowercase, modelling `str.lower()` on the inputs of
interest (CJK characters are case-less in both models). -/
def lowerStr (s : String) : String :=
  String.mk (s.data.map Char.toLower)

/-- Character-wise ASCII uppercase, modelling `str.upper()` likewise. -/
def upperStr (s : String) : String :=
  String.mk (s.data.map Char.toUpper)

/-- Boolean test that `n` starts the list `h`. -/
def startsWithL : List Char → List Char → Bool
  | [], _ => true
  | _ :: _, [] => false
  | a :: as, b :: bs => a = b && startsWithL as bs

/-- Boolean substring search, modelling Python's `needle in hay`. -/
def subListB (needle : List Char) : List Char → Bool
  | [] => needle.isEmpty
  | c :: rest => startsWithL needle (c :: rest) || subListB needle rest

/-- String-level substring test: `strIncludes hay needle` is Python's
`needle in hay`. -/
def strIncludes (hay needle : String) : Bool :=
  subListB needle.data hay.data

theorem startsWithL_iff (n h : List Char) :
    startsWithL n h = true ↔ ∃ post, h = n ++ post := by
  induction n generalizing h with
  | nil => simp [startsWithL]
  | cons a as ih =>
    cases h with
    | nil =>
      simp [startsWithL]
    | cons b bs =>
      simp only [startsWithL, Bool.and_eq_true, decide_eq_true_eq, ih,
        List.cons_append, List.cons.injEq]
      constructor
      · rintro ⟨rfl, post, rfl⟩
        exact ⟨post, rfl, rfl⟩
      · rintro ⟨post, rfl, rfl⟩
        exact ⟨rfl, post, rfl⟩

theorem subListB_iff (n h : List Char) :
    subListB n h = true ↔ ∃ pre post, h = pre ++ n ++ post := by
  induction h with
  | nil =>
    simp only [subListB, List.isEmpty_iff]
    constructor
    · rintro rfl
      exact ⟨[], [], rfl⟩
    · rintro ⟨pre, post, hh⟩
      rcases List.append_eq_nil.mp hh.symm with ⟨h1, h2⟩
      exact (List.append_eq_nil.mp h1).2
  | cons c rest ih =>
    simp only [subListB, Bool.or_eq_true, startsWithL_iff, ih]
    constructor
    · rintro (⟨post, hpost⟩ | ⟨pre, post, hpp⟩)
      · exact ⟨[], post, by simpa using hpost⟩
      · exact ⟨c :: pre, post, by simp [hpp]⟩
    · rintro ⟨pre, post, hh⟩
      cases pre with
      | nil =>
        exact Or.inl ⟨post, by simpa using hh⟩
      | cons p ps =>
        simp only [List.cons_append, List.cons.injEq] at hh
        exact Or.inr ⟨ps, post, hh.2⟩

/-- Left trim: drop leading ASCII whitespace. -/
def trimL (l : List Char) : List Char :=
  l.dropWhile isSpaceChar

/-- Right trim: drop trailing ASCII whitespace. -/
def trimR (l : List Char) : List Char :=
  (l.reverse.dropWhile isSpaceChar).reverse

/-- Both-ends trim on character lists. -/
def trimChars (l : List Char) : List Char :=
  trimR (trimL l)

/-- Model of Python's `str.strip()` (no arguments) on ASCII whitespace. -/
def trimStr (s : String) : String :=
  String.mk (trimChars s.data)

theorem dropWhile_dropWhile (p : Char → Bool) (l : List Char) :
    (l.dropWhile p).dropWhile p = l.dropWhile p := by
  induction l with
  | nil => rfl
  | cons a l ih =>
    by_cases h : p a = true
    · simp [List.dropWhile_cons, h, ih]
    · simp [List.dropWhile_cons, h]

theorem trimR_trimR (l : List Char) : trimR (trimR l) = trimR l := by
  simp [trimR, dropWhile_dropWhile]

theorem dropWhile_eq_self_of_trimR {l : List Char}
    (h : l.dropWhile isSpaceChar = l) :
    (trimR l).dropWhile isSpaceChar = trimR l := by
  have hsuf : trimR l <+: l := by
    have h1 : (trimR l).reverse <:+ l.reverse := by
      simpa [trimR] using
        List.dropWhile_suffix (l := l.reverse) (p := isSpaceChar)
    exact List.reverse_suffix.mp h1
  cases htr : trimR l with
  | nil => rfl
  | cons c cs =>
    cases l with
    | nil =>
      simp [trimR] at htr
    | cons b bs =>
      have hc : c = b := by
        rw [htr] at hsuf
        rcases hsuf with ⟨t, ht⟩
        simpa using congrArg (fun xs => xs.headI) ht
      have hb : isSpaceChar b = false := by
        by_contra hb'
        have hb2 : isSpaceChar b = true := by
          revert hb'
          cases isSpaceChar b <;> simp
        rw [List.dropWhile_cons, if_pos hb2] at h
        have hlen := congrArg List.length h
        have hle : (bs.dropWhile isSpaceChar).length ≤ bs.length :=
          (List.dropWhile_suffix (l := bs) isSpaceChar).sublist.length_le
        simp at hlen
        omega
      rw [List.dropWhile_cons, hc, if_neg (by simp [hb])]

theorem trimChars_trimChars (l : List Char) :
    trimChars (trimChars l) = trimChars l := by
  unfold trimChars
  have h1 : (trimL l).dropWhile isSpaceChar = trimL l :=
    dropWhile_dropWhile isSpaceChar l
  have h2 : trimL (trimR (trimL l)) = trimR (trimL l) :=
    dropWhile_eq_self_of_trimR h1
  rw [h2, trimR_trimR]

theorem trimStr_trimStr (s : String) : trimStr (trimStr s) = trimStr s := by
  simp [trimStr, trimChars_trimChars]

/-!
## Memory store (memory.py)

The `cat_memories` table.  `add_cat_memory` (memory.py lines 185-199) runs a
single `INSERT INTO cat_memories ...`, i.e. it unconditionally appends a row.
The timestamp column is dropped from the model.
-/

/-- Row of the `cat_memories` table: persona id, memory text, importance. -/
structure MemEntry where
  cat_id : String
  memory : String
  importance : Nat
  deriving DecidableEq

/-- Model of `add_cat_memory(cat_id, memory, importance)`: one INSERT, which
appends a row to the table. -/
def add_cat_memory (store : List MemEntry) (cat_id memory : String)
    (importance : Nat) : List MemEntry :=
  store ++ [MemEntry.mk cat_id memory importance]

/-- C1 counterexample: adding the memory text "likes dark mode" twice for
persona "arch" at importance 2 yields two separate rows of importance 2; no
row of importance 3 exists, so there is no dedup-with-increment. -/
theorem C1_add_memory_twice_counterexample :
    add_cat_memory (add_cat_memory [] "arch" "likes dark mode" 2)
        "arch" "likes dark mode" 2
      = [MemEntry.mk "arch" "likes dark mode" 2,
         MemEntry.mk "arch" "likes dark mode" 2]
    ∧ (add_cat_memory (add_cat_memory [] "arch" "likes dark mode" 2)
        "arch" "likes dark mode" 2).length = 2
    ∧ (add_cat_memory (add_cat_memory [] "arch" "likes dark mode" 2)
        "arch" "likes dark mode" 2).all (fun e => e.importance == 2) = true :=
  ⟨rfl, rfl, rfl⟩

/-- C1 amended: adding the same memory text twice for a persona appends two
separate rows, each carrying the importance passed in; the number of stored
rows with that persona and text grows by exactly two and no importance is
incremented. -/
theorem C1_add_memory_twice_appends (store : List MemEntry) (c m : String)
    (i : Nat) :
    add_cat_memory (add_cat_memory store c m i) c m i
      = store ++ [MemEntry.mk c m i, MemEntry.mk c m i]
    ∧ ((add_cat_memory (add_cat_memory store c m i) c m i).filter
        (fun e => e.cat_id == c && e.memory == m)).length
      = (store.filter (fun e => e.cat_id == c && e.memory == m)).length + 2 := by
  constructor
  · simp [add_cat_memory]
  · simp [add_cat_memory, List.filter_append]

/-!
## Task board (taskboard.py)

In-memory `tasks` dict modelled as an insertion-ordered list of tasks (ids are
the dict keys and are unique on every reachable board).  The SQLite mirror
repeats the same mutations and is not modelled separately; `created_at` only
orders the initial SELECT and is dropped.
-/

/-- Decimal digit character, used with arguments below 10. -/
def digitChar10 (n : Nat) : Char :=
  match n with
  | 0 => '0' | 1 => '1' | 2 => '2' | 3 => '3' | 4 => '4'
  | 5 => '5' | 6 => '6' | 7 => '7' | 8 => '8' | 9 => '9'
  | _ => '0'

/-- Fuel-driven digit expansion; the fuel only bounds the recursion depth and
any fuel above the argument gives the same digits. -/
def natDigitsAux : Nat → Nat → List Char
  | 0, _ => []
  | fuel + 1, n =>
    if n < 10 then [digitChar10 n]
    else natDigitsAux fuel (n / 10) ++ [digitChar10 (n % 10)]

/-- Decimal digit list of a natural number (most significant first), the
digits Python's `%d` formatting produces. -/
def natDigits (n : Nat) : List Char :=
  natDigitsAux (n + 1) n

theorem natDigitsAux_congr :
    ∀ f1 f2 n, n < f1 → n < f2 → natDigitsAux f1 n = natDigitsAux f2 n := by
  intro f1
  induction f1 with
  | zero => omega
  | succ g ih =>
    intro f2 n h1 h2
    cases f2 with
    | zero => omega
    | succ h =>
      by_cases hn : n < 10
      · simp [natDigitsAux, hn]
      · have hd : n / 10 < n := Nat.div_lt_self (by omega) (by omega)
        simp only [natDigitsAux, if_neg hn]
        rw [ih h (n / 10) (by omega) (by omega)]

theorem natDigitsAux_succ (fuel n : Nat) :
    natDigitsAux (fuel + 1) n = if n < 10 then [digitChar10 n]
      else natDigitsAux fuel (n / 10) ++ [digitChar10 (n % 10)] := rfl

theorem natDigits_eq (n : Nat) :
    natDigits n = if n < 10 then [digitChar10 n]
      else natDigits (n / 10) ++ [digitChar10 (n % 10)] := by
  by_cases hn : n < 10
  · simp [natDigits, natDigitsAux, hn]
  · have hd : n / 10 < n := Nat.div_lt_self (by omega) (by omega)
    rw [if_neg hn]
    show natDigitsAux (n + 1) n = natDigits (n / 10) ++ [digitChar10 (n % 10)]
    rw [natDigitsAux_succ, if_neg hn, natDigits,
      natDigitsAux_congr n (n / 10 + 1) (n / 10) (by omega) (by omega)]

/-- Numeric value of a decimal digit character. -/
def charDigit (c : Char) : Nat :=
  c.toNat - '0'.toNat

/-- Value of a decimal digit string, Python's `int` on an all-digit string
(leading zeros allowed; on a non-digit string `int` raises where this total
model returns a junk value). -/
def digitsVal (ds : List Char) : Nat :=
  ds.foldl (fun a c => a * 10 + charDigit c) 0

/-- Model of the f-string `f"T-{n:03d}"` from `TaskBoard._next_id`. -/
def formatId (n : Nat) : String :=
  String.mk ('T' :: '-' ::
    (List.replicate (3 - (natDigits n).length) '0' ++ natDigits n))

/-- Field between the first and second dash of a string, Python's
`s.split("-")[1]` when that field exists (`[]`, where Python would raise
IndexError, otherwise). -/
def fieldAfterDash (l : List Char) : List Char :=
  ((l.dropWhile (fun c => c != '-')).drop 1).takeWhile (fun c => c != '-')

/-- Numeric suffix of a task id, `int(tid.split("-")[1])` from
`TaskBoard._next_id`. -/
def suffixNum (tid : String) : Nat :=
  digitsVal (fieldAfterDash tid.data)

theorem charDigit_digitChar10 {n : Nat} (h : n < 10) :
    charDigit (digitChar10 n) = n := by
  interval_cases n <;> decide

theorem digitChar10_ne_dash (n : Nat) : (digitChar10 n != '-') = true := by
  unfold digitChar10
  split <;> decide

theorem digitsVal_append_digit (xs : List Char) (c : Char) :
    digitsVal (xs ++ [c]) = digitsVal xs * 10 + charDigit c := by
  simp [digitsVal, List.foldl_append]

theorem digitsVal_natDigits (n : Nat) : digitsVal (natDigits n) = n := by
  induction n using Nat.strong_induction_on with
  | _ n ih =>
    rw [natDigits_eq]
    by_cases h : n < 10
    · rw [if_pos h]
      simpa [digitsVal] using charDigit_digitChar10 h
    · rw [if_neg h]
      rw [digitsVal_append_digit, ih (n / 10) (Nat.div_lt_self (by omega) (by omega)),
        charDigit_digitChar10 (Nat.mod_lt n (by omega))]
      have := Nat.div_add_mod n 10
      omega

theorem natDigits_ne_dash (n : Nat) : ∀ c ∈ natDigits n, (c != '-') = true := by
  induction n using Nat.strong_induction_on with
  | _ n ih =>
    rw [natDigits_eq]
    by_cases h : n < 10
    · rw [if_pos h]
      intro c hc
      rw [List.mem_singleton] at hc
      subst hc
      exact digitChar10_ne_dash n
    · rw [if_neg h]
      intro c hc
      rcases List.mem_append.mp hc with h1 | h2
      · exact ih (n / 10) (Nat.div_lt_self (by omega) (by omega)) c h1
      · rw [List.mem_singleton] at h2
        subst h2
        exact digitChar10_ne_dash (n % 10)

theorem digitsVal_replicate_zero (k : Nat) (ds : List Char) :
    digitsVal (List.replicate k '0' ++ ds) = digitsVal ds := by
  induction k with
  | zero => simp
  | succ k ih =>
    have : digitsVal (List.replicate (k + 1) '0' ++ ds)
        = (List.replicate k '0' ++ ds).foldl (fun a c => a * 10 + charDigit c) 0 := by
      simp [List.replicate_succ, digitsVal]
      rfl
    rw [this]
    exact ih

theorem suffixNum_formatId (n : Nat) : suffixNum (formatId n) = n := by
  unfold suffixNum formatId fieldAfterDash
  have hdw : List.dropWhile (fun c => c != '-')
      ('T' :: '-' :: (List.replicate (3 - (natDigits n).length) '0' ++ natDigits n))
      = '-' :: (List.replicate (3 - (natDigits n).length) '0' ++ natDigits n) := by
    rw [List.dropWhile_cons_of_pos (by decide), List.dropWhile_cons_of_neg (by decide)]
  have htw : List.takeWhile (fun c => c != '-')
      (List.replicate (3 - (natDigits n).length) '0' ++ natDigits n)
      = List.replicate (3 - (natDigits n).length) '0' ++ natDigits n := by
    rw [List.takeWhile_eq_self_iff]
    intro c hc
    rcases List.mem_append.mp hc with h1 | h2
    · have := List.eq_of_mem_replicate h1
      subst this
      decide
    · exact natDigits_ne_dash n c h2
  simp only [hdw, List.drop_succ_cons, List.drop_zero, htw]
  rw [digitsVal_replicate_zero, digitsVal_natDigits]

/-- Task status column: pending, doing or done. -/
inductive TaskStatus where
  | pending
  | doing
  | done
  deriving DecidableEq

/-- Row of the task board: id, title, status, owner (created_at dropped). -/
structure Task where
  id : String
  title : String
  status : TaskStatus
  owner : String
  deriving DecidableEq

/-- Task board state: the `tasks` dict in insertion order. -/
abbrev Board := List Task

/-- Python's `max` over a non-empty list (`0` where Python would raise). -/
def pyMax : List Nat → Nat
  | [] => 0
  | x :: xs => xs.foldl max x

/-- Model of `TaskBoard._next_id`: max numeric suffix + 1 formatted `T-NNN`,
or `T-001` on an empty board. -/
def next_id (b : Board) : String :=
  match b with
  | [] => "T-001"
  | t :: ts => formatId (pyMax ((t :: ts).map (fun u => suffixNum u.id)) + 1)

/-- Model of `TaskBoard.add`: assign the next id, append a pending task. -/
def Board.add (b : Board) (title : String) : Board × Task :=
  let t := Task.mk (next_id b) title TaskStatus.pending ""
  (b ++ [t], t)

/-- Model of `TaskBoard.claim`: pending → doing with the given owner. -/
def Board.claim (b : Board) (task_id owner : String) : Board × Bool :=
  match b.find? (fun t => t.id == task_id) with
  | some t =>
    if t.status = TaskStatus.pending then
      (b.map (fun u =>
        if u.id == task_id then Task.mk u.id u.title TaskStatus.doing owner
        else u), true)
    else (b, false)
  | none => (b, false)

/-- Model of `TaskBoard.complete`: doing → done. -/
def Board.complete (b : Board) (task_id : String) : Board × Bool :=
  match b.find? (fun t => t.id == task_id) with
  | some t =>
    if t.status = TaskStatus.doing then
      (b.map (fun u =>
        if u.id == task_id then Task.mk u.id u.title TaskStatus.done u.owner
        else u), true)
    else (b, false)
  | none => (b, false)

/-- Model of `TaskBoard.remove`: delete the row if the id exists. -/
def Board.remove (b : Board) (task_id : String) : Board × Bool :=
  if b.any (fun t => t.id == task_id) then
    (b.filter (fun t => !(t.id == task_id)), true)
  else (b, false)

/-- Model of `TaskBoard.has_pending_work`. -/
def has_pending_work (b : Board) : Bool :=
  b.any (fun t => t.status == TaskStatus.pending || t.status == TaskStatus.doing)

/-- Maximum numeric id suffix on a board, `0` when empty. -/
def maxSuffNum (b : Board) : Nat :=
  (b.map (fun t => suffixNum t.id)).foldl max 0

theorem foldl_max_init_le (l : List Nat) (a : Nat) : a ≤ l.foldl max a := by
  induction l generalizing a with
  | nil => exact Nat.le_refl a
  | cons b bs ih =>
    exact Nat.le_trans (Nat.le_max_left a b) (ih (max a b))

theorem mem_le_foldl_max {l : List Nat} {x : Nat} (a : Nat) (hx : x ∈ l) :
    x ≤ l.foldl max a := by
  induction l generalizing a with
  | nil => cases hx
  | cons b bs ih =>
    rcases List.mem_cons.mp hx with rfl | h2
    · exact Nat.le_trans (Nat.le_max_right a x) (foldl_max_init_le bs (max a x))
    · exact ih (max a b) h2

theorem next_id_eq_formatId (b : Board) :
    next_id b = formatId (maxSuffNum b + 1) := by
  cases b with
  | nil => decide
  | cons t ts =>
    simp [next_id, pyMax, maxSuffNum, Nat.zero_max]

/-- C5: the id assigned by `add` is the maximum existing numeric suffix + 1
(1 on the empty board) formatted `T-NNN`, its suffix strictly dominates every
existing suffix (so ids are fresh and monotone), and the concrete scenario
add "X" / add "Y" / remove T-001 / add "Z" yields T-001, T-002, T-003. -/
theorem C5_next_id_max_suffix (b : Board) (title : String) :
    (Board.add b title).2.id = formatId (maxSuffNum b + 1)
    ∧ suffixNum (Board.add b title).2.id = maxSuffNum b + 1
    ∧ (∀ t ∈ b, t.id ≠ (Board.add b title).2.id)
    ∧ ((Board.add [] "X").2.id = "T-001"
        ∧ (Board.add (Board.add [] "X").1 "Y").2.id = "T-002"
        ∧ (Board.add
            (Board.remove (Board.add (Board.add [] "X").1 "Y").1 "T-001").1
            "Z").2.id = "T-003") := by
  have hid : (Board.add b title).2.id = formatId (maxSuffNum b + 1) :=
    next_id_eq_formatId b
  refine ⟨hid, ?_, ?_, by decide, by decide, by decide⟩
  · rw [hid, suffixNum_formatId]
  · intro t ht heq
    have hle : suffixNum t.id ≤ maxSuffNum b := by
      have hmem : suffixNum t.id ∈ b.map (fun u => suffixNum u.id) :=
        List.mem_map.mpr ⟨t, ht, rfl⟩
      exact mem_le_foldl_max 0 hmem
    rw [heq, hid, suffixNum_formatId] at hle
    omega

/-- C5 witness: applying the freshness part at a concrete one-task board shows
the existing id T-002 differs from the newly assigned id. -/
theorem C5_next_id_max_suffix_witness :
    "T-002" ≠ (Board.add [Task.mk "T-002" "Y" TaskStatus.pending ""] "Z").2.id :=
  (C5_next_id_max_suffix [Task.mk "T-002" "Y" TaskStatus.pending ""] "Z").2.2.1
    (Task.mk "T-002" "Y" TaskStatus.pending "") (by decide)

/-!
## Marker regex machinery (taskboard.py and cats.py patterns)

Hand-compiled forms of the `re` patterns used by the repository.  `reSub f`
follows `re.sub(pat, '', text)`: leftmost match, remove, continue after the
match; `reFindAll f` follows `re.findall`: leftmost, non-overlapping,
collecting captures.  Every matcher consumes at least one character on
success, so fuel equal to the input length never runs out.
-/

/-- One pass of `re.sub(pat, '', ·)` for a matcher `f` that returns the rest
after a match at the current position. -/
def subScan (f : List Char → Option (List Char)) : Nat → List Char → List Char
  | 0, t => t
  | _ + 1, [] => []
  | fuel + 1, c :: cs =>
    match f (c :: cs) with
    | some rest => subScan f fuel rest
    | none => c :: subScan f fuel cs

/-- Model of `re.sub(pat, '', text)` for matcher `f`. -/
def reSub (f : List Char → Option (List Char)) (l : List Char) : List Char :=
  subScan f l.length l

/-- Scanner collecting captures, one per non-overlapping leftmost match. -/
def scanAll {α : Type} (f : List Char → Option (α × List Char)) :
    Nat → List Char → List α
  | 0, _ => []
  | _ + 1, [] => []
  | fuel + 1, c :: cs =>
    match f (c :: cs) with
    | some (a, rest) => a :: scanAll f fuel rest
    | none => scanAll f fuel cs

/-- Model of `re.findall(pat, text)` for matcher `f`. -/
def reFindAll {α : Type} (f : List Char → Option (α × List Char))
    (l : List Char) : List α :=
  scanAll f l.length l

/-- Literal match: consume `lit` or fail. -/
def litMatch (lit : List Char) (l : List Char) : Option (List Char) :=
  if startsWithL lit l then some (l.drop lit.length) else none

/-- Character class `[：:]`: fullwidth or ASCII colon. -/
def colonMatch : List Char → Option (List Char)
  | c :: cs => if c = '：' || c = ':' then some cs else none
  | [] => none

/-- Scan for the first `]`, failing on a newline or the end of input; models
the expansion steps of a lazy `.+?` in front of `\]` (a dot does not match a
newline). -/
def lazyCloseScan : List Char → Option (List Char)
  | [] => none
  | c :: cs => if c = ']' then some cs else if c = '\n' then none else lazyCloseScan cs

/-- Matcher for `.+?\]`: at least one non-newline character, then the nearest
closing bracket. -/
def lazyClose : List Char → Option (List Char)
  | [] => none
  | c :: cs => if c = '\n' then none else lazyCloseScan cs

/-- Capture variant of `lazyCloseScan`, accumulating the group. -/
def lazyCloseCapAux : List Char → List Char → Option (List Char × List Char)
  | _, [] => none
  | acc, c :: cs =>
    if c = ']' then some (acc.reverse, cs)
    else if c = '\n' then none
    else lazyCloseCapAux (c :: acc) cs

/-- Matcher for `(.+?)\]` returning the captured group and the rest. -/
def lazyCloseCap : List Char → Option (List Char × List Char)
  | [] => none
  | c :: cs => if c = '\n' then none else lazyCloseCapAux [c] cs

/-- Matcher for `\s*(.+?)\]`: the greedy space run backtracks one character at
a time when the lazy group cannot find a closing bracket. -/
def spacesLazyCloseCap : List Char → Option (List Char × List Char)
  | [] => none
  | c :: cs =>
    if isSpaceChar c then
      match spacesLazyCloseCap cs with
      | some r => some r
      | none => lazyCloseCap (c :: cs)
    else lazyCloseCap (c :: cs)

/-- No-capture variant of `spacesLazyCloseCap`, for `\s*.+?\]` inside subs. -/
def spacesLazyClose : List Char → Option (List Char)
  | [] => none
  | c :: cs =>
    if isSpaceChar c then
      match spacesLazyClose cs with
      | some r => some r
      | none => lazyClose (c :: cs)
    else lazyClose (c :: cs)

/-- Matcher for `T-\d+\]`: the task id then the closing bracket, returning
(id characters, rest). -/
def tidClose (l : List Char) : Option (List Char × List Char) :=
  match litMatch "T-".data l with
  | some l2 =>
    let ds := l2.takeWhile isDigitChar
    if ds.isEmpty then none
    else
      match l2.drop ds.length with
      | ']' :: rest => some ('T' :: '-' :: ds, rest)
      | _ => none
  | none => none

/-!
## strip_task_markers and parse_task_actions (taskboard.py lines 162-196)
-/

/-- Matcher for `\s*\[新任务[：:].+?\]`. -/
def mStripNewTask (l : List Char) : Option (List Char) :=
  ((litMatch "[新任务".data (l.dropWhile isSpaceChar)).bind colonMatch).bind lazyClose

/-- Matcher for `\s*\[认领[：:]\s*T-\d+\]`. -/
def mStripClaim (l : List Char) : Option (List Char) :=
  ((litMatch "[认领".data (l.dropWhile isSpaceChar)).bind colonMatch).bind
    (fun l3 => (tidClose (l3.dropWhile isSpaceChar)).map (fun r => r.2))

/-- Matcher for `\s*\[完成[：:]\s*T-\d+\]`. -/
def mStripComplete (l : List Char) : Option (List Char) :=
  ((litMatch "[完成".data (l.dropWhile isSpaceChar)).bind colonMatch).bind
    (fun l3 => (tidClose (l3.dropWhile isSpaceChar)).map (fun r => r.2))

/-- Matcher for `\s*\[空闲\]`. -/
def mStripIdle (l : List Char) : Option (List Char) :=
  litMatch "[空闲]".data (l.dropWhile isSpaceChar)

/-- Model of `strip_task_markers`: the four subs in source order, then
`.strip()`. -/
def strip_task_markers (text : String) : String :=
  String.mk (trimChars (reSub mStripIdle (reSub mStripComplete
    (reSub mStripClaim (reSub mStripNewTask text.data)))))

/-- Matcher for `\[新任务[：:]\s*(.+?)\]`, returning the raw group. -/
def mParseNewTask (l : List Char) : Option (String × List Char) :=
  ((litMatch "[新任务".data l).bind colonMatch).bind
    (fun l3 => (spacesLazyCloseCap l3).map (fun r => (String.mk r.1, r.2)))

/-- Matcher for `\[认领[：:]\s*(T-\d+)\]`, returning the task id. -/
def mParseClaim (l : List Char) : Option (String × List Char) :=
  ((litMatch "[认领".data l).bind colonMatch).bind
    (fun l3 => (tidClose (l3.dropWhile isSpaceChar)).map
      (fun r => (String.mk r.1, r.2)))

/-- Matcher for `\[完成[：:]\s*(T-\d+)\]`, returning the task id. -/
def mParseComplete (l : List Char) : Option (String × List Char) :=
  ((litMatch "[完成".data l).bind colonMatch).bind
    (fun l3 => (tidClose (l3.dropWhile isSpaceChar)).map
      (fun r => (String.mk r.1, r.2)))

/-- Parsed task-board action. -/
inductive TaskAction where
  | create (title : String)
  | claim (task_id : String)
  | complete (task_id : String)
  | idle
  deriving DecidableEq

/-- Model of `parse_task_actions`: creates, then claims, then completes, then
at most one idle, in source order; created titles are `.strip()`ed. -/
def parse_task_actions (text : String) : List TaskAction :=
  ((reFindAll mParseNewTask text.data).map (fun t => TaskAction.create (trimStr t)))
  ++ ((reFindAll mParseClaim text.data).map TaskAction.claim)
  ++ ((reFindAll mParseComplete text.data).map TaskAction.complete)
  ++ (if strIncludes text "[空闲]" then [TaskAction.idle] else [])

/-- C9 counterexample: on the reply `[新[完成：T-1]任务：x]` one strip removes
the inner complete marker and splices the surrounding text into a brand-new
create marker, which a second strip then removes, so stripping twice differs
from stripping once. -/
theorem C9_strip_not_idempotent_counterexample :
    strip_task_markers "[新[完成：T-1]任务：x]" = "[新任务：x]"
    ∧ strip_task_markers (strip_task_markers "[新[完成：T-1]任务：x]") = ""
    ∧ ("[新任务：x]" : String) ≠ "" := by
  exact ⟨by decide, by decide, by decide⟩

/-- C9 amended: marker stripping is idempotent exactly on replies whose once-
stripped text contains no further marker occurrence (the four subs leave it
unchanged); when removing a marker splices a new marker together, as in the
counterexample, a second strip removes more. -/
theorem C9_strip_idempotent_when_clean (t : String)
    (h : reSub mStripIdle (reSub mStripComplete (reSub mStripClaim
        (reSub mStripNewTask (strip_task_markers t).data)))
      = (strip_task_markers t).data) :
    strip_task_markers (strip_task_markers t) = strip_task_markers t := by
  show String.mk (trimChars (reSub mStripIdle (reSub mStripComplete
    (reSub mStripClaim (reSub mStripNewTask (strip_task_markers t).data)))))
    = strip_task_markers t
  rw [h]
  show String.mk (trimChars (trimChars (reSub mStripIdle (reSub mStripComplete
    (reSub mStripClaim (reSub mStripNewTask t.data)))))) = strip_task_markers t
  rw [trimChars_trimChars]
  rfl

/-- C9 witness: on a reply whose stripped text `好的` is marker-free, the
amended idempotence theorem applies. -/
theorem C9_strip_idempotent_when_clean_witness :
    strip_task_markers (strip_task_markers "好的 [空闲]")
      = strip_task_markers "好的 [空闲]" :=
  C9_strip_idempotent_when_clean "好的 [空闲]" (by decide)

/-!
## process_response (cats.py lines 228-232 and 351-384)

The source returns `(clean_text, skip, next_targets)` and performs
`add_cat_memory` / `set_user_info` calls as side effects; the model returns
the same triple plus the two write lists.
-/

/-- Matcher for the alternation `\[讨论\]|\[问:\w+\]` (ASCII colon in the
source pattern); the left branch is tried first. -/
def mDiscussAsk (l : List Char) : Option (List Char) :=
  match litMatch "[讨论]".data l with
  | some rest => some rest
  | none =>
    (litMatch "[问:".data l).bind (fun l2 =>
      let ws := l2.takeWhile isWordChar
      if ws.isEmpty then none
      else
        match l2.drop ws.length with
        | ']' :: rest => some rest
        | _ => none)

/-- Matcher for `\[记住[：:]\s*(.+?)\]`, returning the raw group. -/
def mParseRemember (l : List Char) : Option (String × List Char) :=
  ((litMatch "[记住".data l).bind colonMatch).bind
    (fun l3 => (spacesLazyCloseCap l3).map (fun r => (String.mk r.1, r.2)))

/-- Matcher for `\s*\[记住[：:]\s*.+?\]`. -/
def mStripRemember (l : List Char) : Option (List Char) :=
  ((litMatch "[记住".data (l.dropWhile isSpaceChar)).bind colonMatch).bind
    spacesLazyClose

/-- Model of `_extract_memories`: (text with remember markers removed and
stripped, list of raw captured memory texts). -/
def extract_memories (text : String) : String × List String :=
  (String.mk (trimChars (reSub mStripRemember text.data)),
   reFindAll mParseRemember text.data)

/-- Matcher for `\[用户[：:]\s*(\w+)[：:]\s*(.+?)\]`, returning both groups. -/
def mParseUser (l : List Char) : Option ((String × String) × List Char) :=
  ((litMatch "[用户".data l).bind colonMatch).bind (fun l2 =>
    let l3 := l2.dropWhile isSpaceChar
    let ws := l3.takeWhile isWordChar
    if ws.isEmpty then none
    else
      (colonMatch (l3.drop ws.length)).bind (fun l4 =>
        (spacesLazyCloseCap l4).map
          (fun r => ((String.mk ws, String.mk r.1), r.2))))

/-- Matcher for `\[用户[：:]\s*\w+[：:]\s*.+?\]`. -/
def mStripUser (l : List Char) : Option (List Char) :=
  ((litMatch "[用户".data l).bind colonMatch).bind (fun l2 =>
    let l3 := l2.dropWhile isSpaceChar
    let ws := l3.takeWhile isWordChar
    if ws.isEmpty then none
    else (colonMatch (l3.drop ws.length)).bind spacesLazyClose)

/-- Result of `CatAgent.process_response`: the returned triple plus the memory
and user-profile writes the call performs. -/
structure ProcOut where
  clean_text : String
  skip : Bool
  next_targets : List String
  mem_writes : List String
  user_writes : List (String × String)
  deriving DecidableEq

/-- Model of `CatAgent.process_response`.  Empty replies and replies that
contain `[跳过]` or strip to the bare word `跳过` return early; otherwise the
ask/discuss markers are removed, memories extracted (written stripped, at
importance 2 by the caller), then user-info pairs extracted (written
stripped), each extraction followed by removing its markers and stripping. -/
def process_response (response : String) : ProcOut :=
  if response = "" then ProcOut.mk "" true [] [] []
  else if strIncludes response "[跳过]" = true ∨ trimStr response = "跳过" then
    ProcOut.mk "" true [] [] []
  else
    let next_targets := ["arch", "stack", "pixel"].filter (fun cid =>
      strIncludes (lowerStr response) ("[问:" ++ cid ++ "]"))
    let c1 := trimStr (String.mk (reSub mDiscussAsk response.data))
    let em := extract_memories c1
    let user_info := reFindAll mParseUser em.1.data
    let c3 := trimStr (String.mk (reSub mStripUser em.1.data))
    ProcOut.mk c3 false next_targets (em.2.map trimStr)
      (user_info.map (fun kv => (trimStr kv.1, trimStr kv.2)))

theorem process_response_skip_eq (r : String)
    (h : strIncludes r "[跳过]" = true ∨ trimStr r = "跳过" ∨ r = "") :
    process_response r = ProcOut.mk "" true [] [] [] := by
  unfold process_response
  by_cases hr : r = ""
  · rw [if_pos hr]
  · rw [if_neg hr, if_pos ?_]
    rcases h with h1 | h2 | h3
    · exact Or.inl h1
    · exact Or.inr h2
    · exact absurd h3 hr

/-- C10: skip detection is a substring test — any reply containing `[跳过]`
anywhere (or stripping to the bare word `跳过`) is treated wholly as a skip:
empty display text and no memory or user-profile write, whatever else the
reply contains. -/
theorem C10_skip_substring_shortcircuit (r : String)
    (h : strIncludes r "[跳过]" = true ∨ trimStr r = "跳过") :
    process_response r = ProcOut.mk "" true [] [] [] :=
  process_response_skip_eq r (by tauto)

/-- C10 witness: a reply embedding `[跳过]` amid substantial content and a
memory marker still parses to the skip result with zero writes. -/
theorem C10_skip_substring_shortcircuit_witness :
    process_response "[跳过] 其实可以用缓存优化 [记住：用户喜欢暗色模式]"
      = ProcOut.mk "" true [] [] [] :=
  C10_skip_substring_shortcircuit
    "[跳过] 其实可以用缓存优化 [记住：用户喜欢暗色模式]" (Or.inl (by decide))

/-!
## Review loop (team.py lines 250-309 and 329; config.py line 69)
-/

/-- Review-loop bound from config.py. -/
def MAX_REVIEW_ROUNDS : Nat := 3

/-- Model of the pass check `"PASS" in review.upper()` (team.py line 277). -/
def reviewPassed (review : String) : Bool :=
  strIncludes (upperStr review) "PASS"

/-- Model of the UI-review pass check `"PASS" in ui_review.upper()` (team.py
line 329), textually the same expression as the code-review check. -/
def ui_review_passed (ui_review : String) : Bool :=
  strIncludes (upperStr ui_review) "PASS"

/-- Code-review loop of `MeowDevTeam.run`: up to `fuel` rounds, counting
review attempts, stopping early on a passing review.  `reviews n` is the
reviewer reply of attempt n+1. -/
def reviewGo (reviews : Nat → String) : Nat → Nat → Nat × Bool
  | 0, attempts => (attempts, false)
  | fuel + 1, attempts =>
    if reviewPassed (reviews attempts) then (attempts + 1, true)
    else reviewGo reviews fuel (attempts + 1)

/-- Model of the review phase: `for round_num in range(1, MAX_REVIEW_ROUNDS + 1)`
returning (number of review attempts, whether one passed). -/
def review_phase (reviews : Nat → String) : Nat × Bool :=
  reviewGo reviews MAX_REVIEW_ROUNDS 0

/-- C7: with MAX_REVIEW_ROUNDS = 3 and a reviewer that never passes, the
review phase performs exactly 3 attempts and terminates unpassed, after which
the orchestrator proceeds (the loop is a bounded for-loop, total by
construction). -/
theorem C7_review_loop_exactly_three (reviews : Nat → String)
    (h : ∀ n, reviewPassed (reviews n) = false) :
    review_phase reviews = (3, false) := by
  simp [review_phase, MAX_REVIEW_ROUNDS, reviewGo, h]

/-- C7 witness: a reviewer that always demands more changes gets exactly 3
review attempts. -/
theorem C7_review_loop_exactly_three_witness :
    review_phase (fun _ => "还是有问题，再改改") = (3, false) :=
  C7_review_loop_exactly_three (fun _ => "还是有问题，再改改") (fun _ => rfl)

/-- C8 counterexample: the lowercase reply "pass" counts as passed although
the literal uppercase substring "PASS" does not appear in it, so "passed iff
uppercase PASS appears in the reply" is false. -/
theorem C8_pass_check_counterexample :
    reviewPassed "pass" = true ∧ strIncludes "pass" "PASS" = false :=
  ⟨by decide, by decide⟩

/-- C8 amended: a review reply passes iff the token PASS appears in the
uppercased reply, i.e. iff the reply contains the token in any casing; the
code-review loop and the single UI review use the identical criterion. -/
theorem C8_pass_check_case_insensitive (r : String) :
    (reviewPassed r = true
      ↔ ∃ pre post, (upperStr r).data = pre ++ "PASS".data ++ post)
    ∧ ui_review_passed r = reviewPassed r := by
  constructor
  · exact subListB_iff "PASS".data (upperStr r).data
  · rfl

/-- C8 witness: the amended criterion applied to the lowercase reply "pass"
exhibits PASS inside its uppercasing. -/
theorem C8_pass_check_case_insensitive_witness :
    ∃ pre post, (upperStr "pass").data = pre ++ "PASS".data ++ post :=
  (C8_pass_check_case_insensitive "pass").1.mp (by decide)

/-!
## Responder policy (app.py lines 309-319)
-/

/-- Persona key. -/
inductive CatKey where
  | arch
  | stack
  | pixel
  deriving DecidableEq

/-- Fixed persona order of `ALL_CATS` (cats.py line 505). -/
def ALL_CATS : List CatKey := [CatKey.arch, CatKey.stack, CatKey.pixel]

/-- Mention test for Arch: `any(k in lo for k in ["arch", "arch酱"])`. -/
def mentions_arch (text : String) : Bool :=
  strIncludes (lowerStr text) "arch" || strIncludes (lowerStr text) "arch酱"

/-- Mention test for Stack. -/
def mentions_stack (text : String) : Bool :=
  strIncludes (lowerStr text) "stack" || strIncludes (lowerStr text) "stack喵"

/-- Mention test for Pixel. -/
def mentions_pixel (text : String) : Bool :=
  strIncludes (lowerStr text) "pixel" || strIncludes (lowerStr text) "pixel咪"

/-- Model of `_pick_responders`; `shuffled` stands for the output of
`random.shuffle` on a copy of ALL_CATS in the no-mention branch. -/
def pick_responders (text : String) (shuffled : List CatKey) : List CatKey :=
  if mentions_arch text then [CatKey.arch]
  else if mentions_stack text then [CatKey.stack]
  else if mentions_pixel text then [CatKey.pixel]
  else shuffled

/-- C4 counterexample: a message mentioning both arch and stack selects only
arch — the matched set is not returned, so not all mentioned personas
respond. -/
theorem C4_mention_rule_counterexample :
    pick_responders "arch和stack都来看看" ALL_CATS = [CatKey.arch]
    ∧ strIncludes (lowerStr "arch和stack都来看看") "stack" = true :=
  ⟨by decide, by decide⟩

/-- C4 amended: the first matched persona in the fixed order arch, stack,
pixel responds alone; later mentions are ignored; with no mention at all,
every persona responds in shuffled order. -/
theorem C4_first_mention_wins (text : String) (shuffled : List CatKey) :
    (mentions_arch text = true → pick_responders text shuffled = [CatKey.arch])
    ∧ (mentions_arch text = false → mentions_stack text = true →
        pick_responders text shuffled = [CatKey.stack])
    ∧ (mentions_arch text = false → mentions_stack text = false →
        mentions_pixel text = true → pick_responders text shuffled = [CatKey.pixel])
    ∧ (mentions_arch text = false → mentions_stack text = false →
        mentions_pixel text = false → pick_responders text shuffled = shuffled) := by
  refine ⟨fun h1 => ?_, fun h1 h2 => ?_, fun h1 h2 h3 => ?_, fun h1 h2 h3 => ?_⟩
    <;> simp [pick_responders, h1]
    <;> simp [h2]
    <;> simp [h3]

/-- C4 witness: a message mentioning only pixel selects exactly pixel. -/
theorem C4_first_mention_wins_witness :
    pick_responders "pixel，帮忙看下配色" ALL_CATS = [CatKey.pixel] :=
  (C4_first_mention_wins "pixel，帮忙看下配色" ALL_CATS).2.2.1
    (by decide) (by decide) (by decide)

/-!
## Persona turn and work loop (app.py lines 194-305): not embedded

In this snapshot the app layer and cats.py disagree: app.py lines 248 and 258
pass a `task_board_text` keyword argument that neither `chat_stream_in_group`
nor `chat_in_group` accepts (TypeError at the call site), and app.py line 272
unpacks the three-tuple returned by `process_response` into two names
(ValueError).  Every persona turn of `_cat_respond`, and with it the first
round of `_work_loop`, raises before any reply is parsed or any task action
applied, so the snapshot has no executable turn pipeline to embed; the
coherent pure pieces it would call (`parse_task_actions`,
`strip_task_markers`, `process_response`, the board operations) are embedded
above.
-/

/-!
## Quota fallback (config.py lines 84-102; wrapper absent from src/)

config.py declares FALLBACK_CLI and QUOTA_ERROR_KEYWORDS, but no code under
src/ consumes them and `CatAgent.chat_in_group` has no fallback branch — the
wrapper that the declarations and the spec describe is code of the repository
missing from src/, so it is modelled from the spec here.
-/

/-- Quota keyword list QUOTA_ERROR_KEYWORDS from config.py (source). -/
def QUOTA_ERROR_KEYWORDS : List String :=
  ["rate limit", "rate_limit", "quota", "exceeded", "429",
   "too many requests", "limit reached", "usage limit",
   "billing", "insufficient", "credits", "budget",
   "capacity", "overloaded", "spending limit"]

/-- Fallback helper display name for stack, FALLBACK_CLI from config.py
(source). -/
def FALLBACK_HELPER_NAME : String := "Arch酱"

/-- Outcome of one external CLI invocation: failure flag and output text. -/
structure Invocation where
  failed : Bool
  output : String
  deriving DecidableEq

/-- Case-insensitive substring match of the output against the quota keyword
list (the keywords are lowercase, the output is lowercased). -/
def quotaKeywordMatch (out : String) : Bool :=
  QUOTA_ERROR_KEYWORDS.any (fun k => strIncludes (lowerStr out) k)

/-- Modelled from the spec: the modified prompt instructing the fallback
persona to impersonate the original persona's voice (its exact wording is
not in src/). -/
def impersonation_prompt (orig_name prompt : String) : String :=
  prompt ++ "\n\n（请用" ++ orig_name ++ "的语气和身份回复）"

/-- Modelled from the spec: the attribution note prefixed to the fallback
output (its exact wording is not in src/). -/
def attribution_note (helper_name orig_name : String) : String :=
  "（" ++ helper_name ++ "替" ++ orig_name ++ "回答）"

/-- Modelled from the spec: the quota-fallback wrapper around a persona
invocation, absent from src/.  If the primary invocation fails with output
matching the quota keyword list, the designated fallback persona's process is
invoked once with the impersonation prompt and the attribution note is
prefixed to its output; otherwise the primary output stands.  The second
component counts fallback invocations, which by construction never exceeds
one — the fallback result is returned as-is, never re-examined. -/
def invoke_with_fallback (primary fallbackRun : String → Invocation)
    (orig_name helper_name prompt : String) : String × Nat :=
  let r := primary prompt
  if r.failed = true ∧ quotaKeywordMatch r.output = true then
    (attribution_note helper_name orig_name
      ++ (fallbackRun (impersonation_prompt orig_name prompt)).output, 1)
  else (r.output, 0)

/-- C3 (spec-modelled): when the primary invocation fails with quota-matching
output, the fallback persona's process is re-invoked with the impersonation
prompt, the output is prefixed with the attribution note, and the fallback is
attempted exactly once; moreover no invocation ever performs more than one
fallback attempt, whatever the fallback's own output looks like — the
fallback is never recursive. -/
theorem C3_quota_fallback_once (primary fallbackRun : String → Invocation)
    (orig helper prompt : String)
    (hf : (primary prompt).failed = true)
    (hq : quotaKeywordMatch (primary prompt).output = true) :
    invoke_with_fallback primary fallbackRun orig helper prompt
      = (attribution_note helper orig
          ++ (fallbackRun (impersonation_prompt orig prompt)).output, 1)
    ∧ ∀ (p2 f2 : String → Invocation) (o2 h2 pr2 : String),
        (invoke_with_fallback p2 f2 o2 h2 pr2).2 ≤ 1 := by
  constructor
  · simp [invoke_with_fallback, hf, hq]
  · intro p2 f2 o2 h2 pr2
    unfold invoke_with_fallback
    by_cases hc : (p2 pr2).failed = true ∧ quotaKeywordMatch (p2 pr2).output = true
    · simp [hc]
    · simp [hc]

/-- C3 witness: a primary failure containing "429" and "quota" triggers one
fallback whose quota-looking reply is returned attributed, not re-examined. -/
theorem C3_quota_fallback_once_witness :
    invoke_with_fallback (fun _ => Invocation.mk true "Error: 429 quota exceeded")
        (fun _ => Invocation.mk false "usage limit reached喵，但我先答")
        "Stack喵" "Arch酱" "写个排序"
      = (attribution_note "Arch酱" "Stack喵"
          ++ ((fun _ : String => Invocation.mk false "usage limit reached喵，但我先答")
              (impersonation_prompt "Stack喵" "写个排序")).output, 1) :=
  (C3_quota_fallback_once (fun _ => Invocation.mk true "Error: 429 quota exceeded")
    (fun _ => Invocation.mk false "usage limit reached喵，但我先答")
    "Stack喵" "Arch酱" "写个排序" rfl (by decide)).1

end MeowDev
